import Mathlib

/-!
Shallow embedding of the `shm` crate (typed multi-process shared memory).

Rust modules embedded here:
- `src/lib.rs`      : `Page`, `Numa`, `Populate`, typed region `Shm<T>`
- `src/error.rs`    : `Error`, `is_not_found`, `is_already_exists`
- `src/backend.rs`  : `File`, `File::map`, `mbind` encoding
- `src/backend/shm.rs` : `Shm::open`, `Shm::unlink`, `Shm::with_path`
- `src/raw.rs`      : `Raw::new`, `Raw::unlink`
- `src/reservation.rs` : `Reservation::new_contiguous`, `start`, `end`

OS-level calls (`shm_open`, `ftruncate64`, `shm_unlink`, `mmap64`) are
modelled as explicit transitions on a namespace state `OS` (a map from
shared-memory object paths to their current sizes), following the POSIX
semantics the code relies on.  Kernel-chosen mmap addresses are supplied
as oracle parameters.  A `panic!`/`unwrap` abort is the `Outcome.panic`
constructor; recoverable errors are `Outcome.error`.
-/

namespace ShmCrate

/-- The `Page::SIZE` from src/lib.rs: 4096-byte page, the universal rounding
granularity. -/
def Page.SIZE : Nat := 4096

/-- Rust's `usize::next_multiple_of` for a positive modulus: round `n` up to
the next multiple of `m`. -/
def next_multiple_of (n m : Nat) : Nat := ((n + m - 1) / m) * m

/-- The `Numa` policy enum from src/lib.rs / src/numa.rs. -/
inductive Numa
  | Bind (node : Nat)
  | Interleave (nodes : List Nat)
deriving DecidableEq, Repr

/-- The `Populate` enum from src/lib.rs. -/
inductive Populate
  | PageTable
  | Physical
deriving DecidableEq, Repr

/-- Projection of `std::io::ErrorKind` restricted to the kinds the crate
inspects. -/
inductive ErrorKind
  | notFound
  | alreadyExists
  | other
deriving DecidableEq, Repr

/-- The `Error` enum from src/error.rs. -/
inductive Error
  | ShmName
  | Shm (path : List Nat) (name : String) (kind : ErrorKind)
  | Libc (name : String) (kind : ErrorKind)
deriving DecidableEq, Repr

/-- The `Error::is_not_found` from src/error.rs: true for `Shm`/`Libc` errors whose
io kind is `NotFound`. -/
def Error.is_not_found : Error → Bool
  | .Shm _ _ kind => kind = .notFound
  | .Libc _ kind => kind = .notFound
  | .ShmName => false

/-- The `Error::is_already_exists` from src/error.rs: true only for `Libc` errors
whose io kind is `AlreadyExists`. -/
def Error.is_already_exists : Error → Bool
  | .Libc _ kind => kind = .alreadyExists
  | _ => false

/-- Result of running a fallible, possibly-aborting piece of code. -/
inductive Outcome (α : Type)
  | ok (a : α)
  | error (e : Error)
  | panic (msg : String)
deriving DecidableEq, Repr

/-! ## NUMA encoding (src/backend.rs `mbind`, src/numa.rs `to_mode_mask`) -/

/-- The `libc::MPOL_BIND`. -/
def MPOL_BIND : Nat := 2

/-- The `libc::MPOL_INTERLEAVE`. -/
def MPOL_INTERLEAVE : Nat := 3

/-- The `libc::MPOL_F_STATIC_NODES` (1 << 15). -/
def MPOL_F_STATIC_NODES : Nat := 1 <<< 15

/-- u64 shift `1u64 << node` (wrapping semantics of the 64-bit word). -/
def u64_bit (node : Nat) : Nat := (1 <<< node) % 2 ^ 64

/-- Arguments of the `mbind` placement syscall as assembled by `mbind` in
src/backend.rs lines 158-199: mode, 64-bit node mask, maxnode, flags. -/
structure MbindCall where
  mode : Nat
  mask : Nat
  maxnode : Nat
  flags : Nat
deriving DecidableEq, Repr

/-- Policy-to-(mode, mask) encoding from `mbind` in src/backend.rs:
`Bind{node}` gives `(MPOL_BIND, 1u64 << node)`; `Interleave{nodes}` gives
`(MPOL_INTERLEAVE, fold of 1u64 << node over nodes)`. -/
def Numa.to_mode_mask : Numa → Nat × Nat
  | .Bind node => (MPOL_BIND, u64_bit node)
  | .Interleave nodes =>
      (MPOL_INTERLEAVE, nodes.foldl (fun l node => l ||| u64_bit node) 0)

/-- The full `mbind` syscall argument assembly from src/backend.rs: mode is
`MPOL_F_STATIC_NODES | policy`, maxnode is the literal 64, flags 0. -/
def mbindEncode (numa : Numa) : MbindCall :=
  let (policy, mask) := numa.to_mode_mask
  { mode := MPOL_F_STATIC_NODES ||| policy
  , mask := mask
  , maxnode := 64
  , flags := 0 }

/-! ## OS namespace model for POSIX shared memory objects

The kernel's shm namespace is a finite map from object paths (byte lists)
to the object's current size.  A file descriptor is identified with the
path of the object it refers to (descriptors stay valid for the short
open/truncate window the crate uses them in). -/

/-- A shared-memory object path: the byte content of the `CStr` passed to
the OS (without its terminating NUL). -/
abbrev Path := List Nat

/-- State of the kernel's shm namespace: object path to current byte size. -/
structure OS where
  objects : List (Path × Nat)
deriving DecidableEq, Repr

/-- Look up the size of the object at `path`, if it exists. -/
def OS.lookup (os : OS) (path : Path) : Option Nat :=
  go os.objects
where
  go : List (Path × Nat) → Option Nat
    | [] => none
    | (k, v) :: rest => if k = path then some v else go rest

/-- Set the size of the object at `path` (used by `ftruncate64`). -/
def OS.setSize (os : OS) (path : Path) (size : Nat) : OS :=
  ⟨go os.objects⟩
where
  go : List (Path × Nat) → List (Path × Nat)
    | [] => []
    | (k, v) :: rest => if k = path then (k, size) :: rest else (k, v) :: go rest

/-- Remove the object at `path` (used by `shm_unlink`). -/
def OS.remove (os : OS) (path : Path) : OS :=
  ⟨go os.objects⟩
where
  go : List (Path × Nat) → List (Path × Nat)
    | [] => []
    | (k, v) :: rest => if k = path then rest else (k, v) :: go rest

/-- The `shm_open(path, O_CREAT | O_EXCL | O_RDWR, 0o666)` wrapped by
`try_libc!`: exclusive create.  Fails with `EEXIST` (io kind
`AlreadyExists`) when the object exists; otherwise creates a fresh
zero-sized object and returns a descriptor for it. -/
def shm_open_excl (os : OS) (path : Path) : Outcome Path × OS :=
  match os.lookup path with
  | some _ => (.error (.Libc "shm_open" .alreadyExists), os)
  | none => (.ok path, ⟨(path, 0) :: os.objects⟩)

/-- The `shm_open(path, O_RDWR, 0o666)` wrapped by `try_libc!`: plain open.
Fails with `ENOENT` (io kind `NotFound`) when the object does not exist. -/
def shm_open_plain (os : OS) (path : Path) : Outcome Path × OS :=
  match os.lookup path with
  | some _ => (.ok path, os)
  | none => (.error (.Libc "shm_open" .notFound), os)

/-- The `ftruncate64(fd, size)` wrapped by `try_libc!`: set the object's size. -/
def ftruncate64 (os : OS) (fd : Path) (size : Nat) : Outcome Unit × OS :=
  match os.lookup fd with
  | some _ => (.ok (), os.setSize fd size)
  | none => (.error (.Libc "ftruncate64" .other), os)

/-- The `shm_unlink(path)` wrapped by `try_libc!`: remove the name from the
namespace; fails with `ENOENT` (io kind `NotFound`) when absent. -/
def shm_unlink_sys (os : OS) (path : Path) : Outcome Unit × OS :=
  match os.lookup path with
  | some _ => (.ok (), os.remove path)
  | none => (.error (.Libc "shm_unlink" .notFound), os)

/-! ## Named shared-memory backend (src/backend/shm.rs) -/

/-- The `Shm::MAX_LEN` from src/backend/shm.rs. -/
def MAX_LEN : Nat := 62

/-- The `CStr::from_bytes_until_nul`: the bytes strictly before the first NUL,
or `none` (an `Err`) if the buffer holds no NUL byte. -/
def from_bytes_until_nul (bytes : List Nat) : Option (List Nat) :=
  if 0 ∈ bytes then some (bytes.takeWhile (fun b => b ≠ 0)) else none

/-- The 63-byte path buffer built by `Shm::with_path`: a zeroed
`[0u8; MAX_LEN + 1]` with byte 0 set to `'/'` and the id copied into
bytes `1..=id.len()`. -/
def path_buffer (id : List Nat) : List Nat :=
  47 :: (id ++ List.replicate (MAX_LEN - id.length) 0)

/-- The `Shm::with_path` from src/backend/shm.rs: reject ids longer than
`MAX_LEN` with `Error::ShmName` before any OS call; otherwise build the
`/`-prefixed path buffer, extract a `CStr` from it (`unwrap` panics when
the buffer has no NUL terminator left), and run `apply` on the path.
The third component of the result is the list of OS calls issued. -/
def with_path (os : OS) (id : List Nat)
    (apply : OS → Path → Outcome α × OS × List String) :
    Outcome α × OS × List String :=
  if id.length > MAX_LEN then (.error .ShmName, os, [])
  else
    match from_bytes_until_nul (path_buffer id) with
    | none => (.panic "called Option::unwrap on a None value", os, [])
    | some path => apply os path

/-- The `File` from src/backend.rs: optional descriptor, size, offset into the
descriptor, freshly-created flag. -/
structure File where
  fd : Option Path
  size : Nat
  offset : Int
  create : Bool
deriving DecidableEq, Repr

/-- The `File::is_create` from src/backend.rs. -/
def File.is_create (f : File) : Bool := f.create

/-- The `Shm::open` from src/backend/shm.rs: round the size up to the page
boundary; under `with_path`, attempt an exclusive create, falling back to
a plain open when the error is `is_already_exists`; truncate to the
rounded size only when the exclusive create succeeded; return the `File`
with the freshly-created flag. -/
def Shm.open_ (os : OS) (id : List Nat) (size : Nat) :
    Outcome File × OS × List String :=
  let size := next_multiple_of size Page.SIZE
  match with_path os id (fun os path =>
    match shm_open_excl os path with
    | (.ok fd, os') => (.ok (true, fd), os', ["shm_open"])
    | (.error e, os') =>
        if e.is_already_exists then
          match shm_open_plain os' path with
          | (.ok fd, os'') => (.ok (false, fd), os'', ["shm_open", "shm_open"])
          | (.error e2, os'') => (.error e2, os'', ["shm_open", "shm_open"])
          | (.panic m, os'') => (.panic m, os'', ["shm_open", "shm_open"])
        else (.error e, os', ["shm_open"])
    | (.panic m, os') => (.panic m, os', ["shm_open"])) with
  | (.ok (create, fd), os', trace) =>
      if create then
        match ftruncate64 os' fd size with
        | (.ok _, os'') =>
            (.ok ⟨some fd, size, 0, create⟩, os'', trace ++ ["ftruncate64"])
        | (.error e, os'') => (.error e, os'', trace ++ ["ftruncate64"])
        | (.panic m, os'') => (.panic m, os'', trace ++ ["ftruncate64"])
      else (.ok ⟨some fd, size, 0, create⟩, os', trace)
  | (.error e, os', trace) => (.error e, os', trace)
  | (.panic m, os', trace) => (.panic m, os', trace)

/-- The `Shm::unlink` from src/backend/shm.rs: `with_path(id, shm_unlink)`. -/
def Shm.unlink (os : OS) (id : List Nat) : Outcome Unit × OS × List String :=
  with_path os id (fun os path =>
    match shm_unlink_sys os path with
    | (.ok (), os') => (.ok (), os', ["shm_unlink"])
    | (.error e, os') => (.error e, os', ["shm_unlink"])
    | (.panic m, os') => (.panic m, os', ["shm_unlink"]))

/-! ## The mapping operation (src/backend.rs `File::map`)

`mmap64`, `mbind` and `madvise` interact with the process address space,
which is outside the shm-namespace state; their results are supplied as
oracle parameters (`mmapResult`, `mbindResult`, `madviseResult`). -/

/-- The `File::map` from src/backend.rs: run `mmap64` (result supplied by the
`mmapResult` oracle); if a target `address` was given, `assert_eq!` that
the kernel returned exactly it (mismatch aborts the process); then apply
the NUMA policy via `mbind` if requested, then `madvise` if
`Populate::Physical`, and return the mapped base address. -/
def File.map (_f : File) (address : Option Nat)
    (numa : Option Numa) (populate : Option Populate)
    (mmapResult : Except Error Nat)
    (mbindResult : Except Error Unit) (madviseResult : Except Error Unit) :
    Outcome Nat :=
  match mmapResult with
  | .error e => .error e
  | .ok actual =>
      match address with
      | some expected =>
          if expected = actual then
            afterChecks actual
          else .panic "assertion failed: expected == actual"
      | none => afterChecks actual
where
  afterChecks (actual : Nat) : Outcome Nat :=
    match numa, mbindResult with
    | some _, .error e => .error e
    | _, _ =>
        match populate, madviseResult with
        | some .Physical, .error e => .error e
        | _, _ => .ok actual

/-! ## Raw mapping handle (src/raw.rs) -/

/-- The `Raw` from src/raw.rs: name, size (as stored by `Raw::new`), mapped
base address. -/
structure Raw where
  name : List Nat
  size : Nat
  address : Nat
deriving DecidableEq, Repr

/-- The `Raw::new` from src/raw.rs with the `Shm` backend: if `create`, first
best-effort `unlink` the name, ignoring a `NotFound` error and propagating
any other; then `NonZeroUsize::new(size).unwrap()` (panics when `size`
is 0); then `backend.open` and `file.map()` at a kernel-chosen address
(no fixed target).  `mmapResult`/`mbindResult`/`madviseResult` are the
oracle results of the address-space calls inside `File::map`. -/
def Raw.new (os : OS) (name : List Nat) (size : Nat) (create : Bool)
    (numa : Option Numa) (populate : Option Populate)
    (mmapResult : Except Error Nat)
    (mbindResult : Except Error Unit) (madviseResult : Except Error Unit) :
    Outcome Raw × OS × List String :=
  match
    (if create then
      match Shm.unlink os name with
      | (.ok (), os', trace) => (Outcome.ok (), os', trace)
      | (.error e, os', trace) =>
          if e.is_not_found then (Outcome.ok (), os', trace)
          else (Outcome.error e, os', trace)
      | (.panic m, os', trace) => (Outcome.panic m, os', trace)
    else ((Outcome.ok ()), os, ([] : List String)))
  with
  | (.error e, os', trace) => (.error e, os', trace)
  | (.panic m, os', trace) => (.panic m, os', trace)
  | (.ok (), os', trace) =>
      if size = 0 then
        (.panic "called Option::unwrap on a None value", os', trace)
      else
        match Shm.open_ os' name size with
        | (.ok file, os'', trace') =>
            (match File.map file none numa populate
                mmapResult mbindResult madviseResult with
              | .ok address => .ok ⟨name, size, address⟩
              | .error e => .error e
              | .panic m => .panic m,
             os'', trace ++ trace' ++ ["mmap64"])
        | (.error e, os'', trace') => (.error e, os'', trace ++ trace')
        | (.panic m, os'', trace') => (.panic m, os'', trace ++ trace')

/-- The `Raw::size` from src/raw.rs: the stored size. -/
def Raw.size_fn (raw : Raw) : Nat := raw.size

/-- The `Raw::unlink` from src/raw.rs: `backend::Shm.unlink(&self.name)`. -/
def Raw.unlink (os : OS) (raw : Raw) : Outcome Unit × OS × List String :=
  Shm.unlink os raw.name

/-! ## Typed shared region `Shm<T>` (src/lib.rs) -/

/-- The `Shm::<T>::SIZE` from src/lib.rs:
`mem::size_of::<T>().next_multiple_of(Page::SIZE)`. -/
def ShmTyped.SIZE (sizeOfT : Nat) : Nat := next_multiple_of sizeOfT Page.SIZE

/-- The `Shm::<T>::new` from src/lib.rs: build the inner `Raw` with the
derived size `Shm::<T>::SIZE` (the type is represented by its
`mem::size_of`, `sizeOfT`). -/
def ShmTyped.new (sizeOfT : Nat) (os : OS) (name : List Nat) (create : Bool)
    (numa : Option Numa) (populate : Option Populate)
    (mmapResult : Except Error Nat)
    (mbindResult : Except Error Unit) (madviseResult : Except Error Unit) :
    Outcome Raw × OS × List String :=
  Raw.new os name (ShmTyped.SIZE sizeOfT) create numa populate
    mmapResult mbindResult madviseResult

/-! ## Reservations (src/reservation.rs)

A reservation's `mmap64(PROT_NONE)` call claims unbacked address space;
the kernel-chosen base is an oracle parameter.  The trace records each
reservation call with the number of bytes requested. -/

/-- The `Reservation<SIZE>` from src/reservation.rs: the base address of the
placeholder mapping. -/
structure Reservation where
  address : Nat
deriving DecidableEq, Repr

/-- The `Reservation::start` from src/reservation.rs. -/
def Reservation.start (r : Reservation) : Nat := r.address

/-- The `Reservation::end` from src/reservation.rs: `address.byte_add(SIZE)`
(end exclusive). -/
def Reservation.end_ (SIZE : Nat) (r : Reservation) : Nat := r.address + SIZE

/-- The `Reservation::new_contiguous::<COUNT>` from src/reservation.rs: issue a
single `mmap` reservation of `SIZE * COUNT` bytes at kernel-chosen `base`,
then build the array with element `i` at `base.byte_add(SIZE * i)`.
Returns the reservations and the trace of reservation calls
(name, bytes requested). -/
def Reservation.new_contiguous (SIZE COUNT : Nat) (base : Nat) :
    List Reservation × List (String × Nat) :=
  ((List.range COUNT).map (fun i => ⟨base + SIZE * i⟩),
   [("mmap64", SIZE * COUNT)])

/-! ## Helper lemmas -/

/-- The node indices a policy mentions (for stating invariants). -/
def Numa.nodes_of : Numa → List Nat
  | .Bind node => [node]
  | .Interleave nodes => nodes

lemma u64_bit_eq_two_pow {n : Nat} (h : n < 64) : u64_bit n = 2 ^ n := by
  have hlt : 2 ^ n < 2 ^ 64 := Nat.pow_lt_pow_right (by norm_num) h
  unfold u64_bit
  rw [Nat.shiftLeft_eq, one_mul, Nat.mod_eq_of_lt hlt]

lemma foldl_or_testBit (b : Nat) (nodes : List Nat) :
    ∀ acc : Nat, (∀ n ∈ nodes, n < 64) →
      ((nodes.foldl (fun l node => l ||| u64_bit node) acc).testBit b = true ↔
        acc.testBit b = true ∨ b ∈ nodes) := by
  induction nodes with
  | nil => intro acc _; simp
  | cons n ns ih =>
      intro acc h
      have hn : n < 64 := h n (List.mem_cons_self n ns)
      rw [List.foldl_cons,
        ih (acc ||| u64_bit n) (fun m hm => h m (List.mem_cons_of_mem n hm)),
        Nat.testBit_lor, u64_bit_eq_two_pow hn, Nat.testBit_two_pow]
      simp only [Bool.or_eq_true, decide_eq_true_eq, List.mem_cons]
      constructor
      · rintro ((h1 | h2) | h3)
        · exact Or.inl h1
        · exact Or.inr (Or.inl h2.symm)
        · exact Or.inr (Or.inr h3)
      · rintro (h1 | h2 | h3)
        · exact Or.inl (Or.inl h1)
        · exact Or.inl (Or.inr h2.symm)
        · exact Or.inr h3

lemma takeWhile_append_zero (id : List Nat) (hnul : 0 ∉ id) (rest : List Nat) :
    (id ++ 0 :: rest).takeWhile (fun b => b ≠ 0) = id := by
  induction id with
  | nil => simp
  | cons x xs ih =>
      have hx : x ≠ 0 := fun h => hnul (h ▸ List.mem_cons_self x xs)
      simp only [List.cons_append, List.takeWhile_cons]
      rw [if_pos (by simpa using hx), ih (fun h => hnul (List.mem_cons_of_mem x h))]

/-- A name of at most 61 bytes leaves a NUL byte in the 63-byte buffer, so
the `CStr` extraction succeeds and the path is `/` followed by the name. -/
lemma path_buffer_ok (id : List Nat) (hnul : 0 ∉ id) (hlen : id.length ≤ 61) :
    from_bytes_until_nul (path_buffer id) = some (47 :: id) := by
  have hk : ∃ j, MAX_LEN - id.length = j + 1 := ⟨MAX_LEN - id.length - 1, by
    unfold MAX_LEN; omega⟩
  obtain ⟨j, hj⟩ := hk
  unfold from_bytes_until_nul path_buffer
  rw [hj, List.replicate_succ]
  rw [if_pos (by simp)]
  simp only [List.takeWhile_cons]
  rw [if_pos (by norm_num), takeWhile_append_zero id hnul]

/-- A name of exactly 62 bytes with no interior NUL fills the whole
63-byte buffer, leaving no NUL terminator: the `CStr` extraction fails. -/
lemma path_buffer_full (id : List Nat) (hnul : 0 ∉ id) (hlen : id.length = 62) :
    from_bytes_until_nul (path_buffer id) = none := by
  unfold from_bytes_until_nul path_buffer
  rw [if_neg]
  unfold MAX_LEN
  rw [hlen]
  simp only [Nat.sub_self, List.replicate_zero, List.append_nil, List.mem_cons]
  rintro (h | h)
  · exact absurd h.symm (by norm_num)
  · exact hnul h

/-- Reduction of `Shm::open` when the object does not yet exist: the
exclusive create succeeds, the fresh object is truncated to the
page-rounded size, and the freshly-created flag is true. -/
lemma Shm.open_absent (os : OS) (id : List Nat) (size : Nat)
    (hnul : 0 ∉ id) (hlen : id.length ≤ 61)
    (habs : os.lookup (47 :: id) = none) :
    Shm.open_ os id size =
      (.ok ⟨some (47 :: id), next_multiple_of size Page.SIZE, 0, true⟩,
       ⟨(47 :: id, next_multiple_of size Page.SIZE) :: os.objects⟩,
       ["shm_open", "ftruncate64"]) := by
  unfold Shm.open_ with_path
  rw [if_neg (by unfold MAX_LEN; omega), path_buffer_ok id hnul hlen]
  simp only [shm_open_excl, habs]
  simp [ftruncate64, OS.lookup, OS.lookup.go, OS.setSize, OS.setSize.go]

/-- Reduction of `Shm::open` when the object already exists: the exclusive
create fails with `AlreadyExists`, the plain-open fallback attaches, no
truncation happens (the namespace is unchanged), and the freshly-created
flag is false. -/
lemma Shm.open_present (os : OS) (id : List Nat) (size sz : Nat)
    (hnul : 0 ∉ id) (hlen : id.length ≤ 61)
    (hp : os.lookup (47 :: id) = some sz) :
    Shm.open_ os id size =
      (.ok ⟨some (47 :: id), next_multiple_of size Page.SIZE, 0, false⟩,
       os, ["shm_open", "shm_open"]) := by
  unfold Shm.open_ with_path
  rw [if_neg (by unfold MAX_LEN; omega), path_buffer_ok id hnul hlen]
  simp only [shm_open_excl, hp]
  rw [show (Error.Libc "shm_open" .alreadyExists).is_already_exists = true from rfl]
  simp [shm_open_plain, hp]

/-- Reduction of `Shm::unlink` when the object does not exist: the
`ENOENT` from `shm_unlink` propagates as a `NotFound` error. -/
lemma Shm.unlink_absent (os : OS) (id : List Nat)
    (hnul : 0 ∉ id) (hlen : id.length ≤ 61)
    (habs : os.lookup (47 :: id) = none) :
    Shm.unlink os id =
      (.error (.Libc "shm_unlink" .notFound), os, ["shm_unlink"]) := by
  unfold Shm.unlink with_path
  rw [if_neg (by unfold MAX_LEN; omega), path_buffer_ok id hnul hlen]
  simp [shm_unlink_sys, habs]

/-- Reduction of `Shm::unlink` when the object exists: the name is removed
from the namespace and the call succeeds. -/
lemma Shm.unlink_present (os : OS) (id : List Nat) (sz : Nat)
    (hnul : 0 ∉ id) (hlen : id.length ≤ 61)
    (hp : os.lookup (47 :: id) = some sz) :
    Shm.unlink os id = (.ok (), os.remove (47 :: id), ["shm_unlink"]) := by
  unfold Shm.unlink with_path
  rw [if_neg (by unfold MAX_LEN; omega), path_buffer_ok id hnul hlen]
  simp [shm_unlink_sys, hp]

/-- A name of at most 61 bytes always leaves a NUL in the path buffer. -/
lemma path_buffer_has_nul (id : List Nat) (hlen : id.length ≤ 61) :
    0 ∈ path_buffer id := by
  have h : MAX_LEN - id.length ≠ 0 := by unfold MAX_LEN; omega
  unfold path_buffer
  simp only [List.mem_cons, List.mem_append, List.mem_replicate]
  exact Or.inr (Or.inr ⟨h, trivial⟩)

lemma from_bytes_until_nul_some (id : List Nat) (hlen : id.length ≤ 61) :
    from_bytes_until_nul (path_buffer id) =
      some ((path_buffer id).takeWhile (fun b => b ≠ 0)) := by
  unfold from_bytes_until_nul
  exact if_pos (path_buffer_has_nul id hlen)

/-- In this namespace model, once the path is derived `Shm::open` always
returns a `File` whose size is the page-rounded requested size. -/
lemma Shm.open_ok_shape (os : OS) (id : List Nat) (size : Nat) (path : Path)
    (hle : id.length ≤ MAX_LEN)
    (hfb : from_bytes_until_nul (path_buffer id) = some path) :
    (∃ os' trace,
      Shm.open_ os id size =
        (.ok ⟨some path, next_multiple_of size Page.SIZE, 0, true⟩, os', trace)) ∨
    (∃ os' trace,
      Shm.open_ os id size =
        (.ok ⟨some path, next_multiple_of size Page.SIZE, 0, false⟩, os', trace)) := by
  unfold Shm.open_ with_path
  rw [if_neg (Nat.not_lt.mpr hle), hfb]
  cases hl : os.lookup path with
  | none =>
      left
      refine ⟨⟨(path, next_multiple_of size Page.SIZE) :: os.objects⟩,
        ["shm_open", "ftruncate64"], ?_⟩
      simp only [shm_open_excl, hl]
      simp [ftruncate64, OS.lookup, OS.lookup.go, OS.setSize, OS.setSize.go]
  | some sz =>
      right
      refine ⟨os, ["shm_open", "shm_open"], ?_⟩
      simp only [shm_open_excl, hl]
      simp [shm_open_plain, hl,
        show (Error.Libc "shm_open" ErrorKind.alreadyExists).is_already_exists = true
          from rfl]

/-- In this namespace model, once the path is derived `Shm::unlink` either
succeeds (object present) or fails with `NotFound` (object absent). -/
lemma Shm.unlink_shape (os : OS) (id : List Nat) (path : Path)
    (hle : id.length ≤ MAX_LEN)
    (hfb : from_bytes_until_nul (path_buffer id) = some path) :
    Shm.unlink os id = (.ok (), os.remove path, ["shm_unlink"]) ∨
    Shm.unlink os id =
      (.error (.Libc "shm_unlink" .notFound), os, ["shm_unlink"]) := by
  unfold Shm.unlink with_path
  rw [if_neg (Nat.not_lt.mpr hle), hfb]
  cases hl : os.lookup path with
  | none => right; simp [shm_unlink_sys, hl]
  | some sz => left; simp [shm_unlink_sys, hl]

/-! ## Claim theorems -/

/-- C2: the named-shared-memory backend's open first attempts an exclusive
create; if that fails with "already exists" it falls back to a plain open
of the existing object and does not resize it (the namespace is
unchanged); the object is truncated to the page-rounded requested size
exactly when the exclusive create succeeded, and the returned handle's
freshly-created flag is true exactly in that case. -/
theorem C2_shm_open_create_or_attach (os : OS) (id : List Nat) (size : Nat)
    (hnul : 0 ∉ id) (hlen : id.length ≤ 61) :
    (os.lookup (47 :: id) = none →
      Shm.open_ os id size =
        (.ok ⟨some (47 :: id), next_multiple_of size Page.SIZE, 0, true⟩,
         ⟨(47 :: id, next_multiple_of size Page.SIZE) :: os.objects⟩,
         ["shm_open", "ftruncate64"])) ∧
    (∀ sz, os.lookup (47 :: id) = some sz →
      Shm.open_ os id size =
        (.ok ⟨some (47 :: id), next_multiple_of size Page.SIZE, 0, false⟩,
         os, ["shm_open", "shm_open"])) :=
  ⟨fun habs => Shm.open_absent os id size hnul hlen habs,
   fun sz hp => Shm.open_present os id size sz hnul hlen hp⟩

/-- C2 witness: creating `"a"` of size 1 in an empty namespace truncates
the fresh object to 4096 and reports freshly-created; attaching to an
existing 12288-byte `"a"` leaves its size alone and reports not-created. -/
theorem C2_shm_open_create_or_attach_witness :
    Shm.open_ ⟨[]⟩ [97] 1 =
      (.ok ⟨some [47, 97], 4096, 0, true⟩, ⟨[([47, 97], 4096)]⟩,
       ["shm_open", "ftruncate64"]) ∧
    Shm.open_ ⟨[([47, 97], 12288)]⟩ [97] 1 =
      (.ok ⟨some [47, 97], 4096, 0, false⟩, ⟨[([47, 97], 12288)]⟩,
       ["shm_open", "shm_open"]) :=
  ⟨(C2_shm_open_create_or_attach ⟨[]⟩ [97] 1 (by decide) (by decide)).1 rfl,
   (C2_shm_open_create_or_attach ⟨[([47, 97], 12288)]⟩ [97] 1 (by decide)
      (by decide)).2 12288 rfl⟩

/-- C5: every name longer than 62 bytes makes open and unlink fail with
the NameTooLong error (`Error::ShmName`) before issuing any OS call (the
namespace is untouched and the call trace is empty); names of at most 62
bytes pass the length validation (neither operation can return
`Error::ShmName`). -/
theorem C5_name_too_long (os : OS) (id : List Nat) (size : Nat) :
    (id.length > MAX_LEN →
      Shm.open_ os id size = (.error .ShmName, os, []) ∧
      Shm.unlink os id = (.error .ShmName, os, [])) ∧
    (id.length ≤ MAX_LEN →
      (Shm.open_ os id size).1 ≠ .error .ShmName ∧
      (Shm.unlink os id).1 ≠ .error .ShmName) := by
  constructor
  · intro hgt
    constructor
    · unfold Shm.open_ with_path
      rw [if_pos hgt]
    · unfold Shm.unlink with_path
      rw [if_pos hgt]
  · intro hle
    by_cases h61 : id.length ≤ 61
    · obtain hfb := from_bytes_until_nul_some id h61
      constructor
      · rcases Shm.open_ok_shape os id size _ hle hfb with ⟨os', tr, heq⟩ | ⟨os', tr, heq⟩ <;>
          rw [heq] <;> simp
      · rcases Shm.unlink_shape os id _ hle hfb with heq | heq <;> rw [heq] <;> simp
    · have h62 : id.length = 62 := by unfold MAX_LEN at hle; omega
      by_cases hnul : 0 ∈ id
      · have hfb : from_bytes_until_nul (path_buffer id) =
            some ((path_buffer id).takeWhile (fun b => b ≠ 0)) := by
          unfold from_bytes_until_nul
          exact if_pos (by unfold path_buffer; simp [hnul])
        constructor
        · rcases Shm.open_ok_shape os id size _ hle hfb with ⟨os', tr, heq⟩ | ⟨os', tr, heq⟩ <;>
            rw [heq] <;> simp
        · rcases Shm.unlink_shape os id _ hle hfb with heq | heq <;> rw [heq] <;> simp
      · obtain hfb := path_buffer_full id hnul h62
        constructor
        · unfold Shm.open_ with_path
          rw [if_neg (Nat.not_lt.mpr hle), hfb]
          simp
        · unfold Shm.unlink with_path
          rw [if_neg (Nat.not_lt.mpr hle), hfb]
          simp

/-- C5 witness: a 63-byte name fails with NameTooLong, no OS call, state
unchanged; a 10-byte name opens without NameTooLong. -/
theorem C5_name_too_long_witness :
    Shm.open_ ⟨[]⟩ (List.replicate 63 97) 1 = (.error .ShmName, ⟨[]⟩, []) ∧
    (Shm.open_ ⟨[]⟩ (List.replicate 10 97) 1).1 ≠ .error .ShmName :=
  ⟨((C5_name_too_long ⟨[]⟩ (List.replicate 63 97) 1).1 (by decide)).1,
   ((C5_name_too_long ⟨[]⟩ (List.replicate 10 97) 1).2 (by decide)).1⟩

/-- C9: for a 62-byte name with no interior NUL (the documented maximum
length), path construction panics: the 63-byte buffer holds `/` plus the
62 name bytes with no room for a NUL terminator, so
`CStr::from_bytes_until_nul(..).unwrap()` aborts before any OS call; any
name of at most 61 bytes completes open and unlink without panicking. -/
theorem C9_max_len_name_panics (os : OS) (id : List Nat) (size : Nat) :
    (id.length = 62 → 0 ∉ id →
      Shm.open_ os id size =
        (.panic "called Option::unwrap on a None value", os, []) ∧
      Shm.unlink os id =
        (.panic "called Option::unwrap on a None value", os, [])) ∧
    (id.length ≤ 61 →
      (∀ m, (Shm.open_ os id size).1 ≠ .panic m) ∧
      (∀ m, (Shm.unlink os id).1 ≠ .panic m)) := by
  constructor
  · intro h62 hnul
    obtain hfb := path_buffer_full id hnul h62
    constructor
    · unfold Shm.open_ with_path
      rw [if_neg (by unfold MAX_LEN; omega), hfb]
    · unfold Shm.unlink with_path
      rw [if_neg (by unfold MAX_LEN; omega), hfb]
  · intro h61
    obtain hfb := from_bytes_until_nul_some id h61
    have hle : id.length ≤ MAX_LEN := by unfold MAX_LEN; omega
    constructor
    · intro m
      rcases Shm.open_ok_shape os id size _ hle hfb with ⟨os', tr, heq⟩ | ⟨os', tr, heq⟩ <;>
        rw [heq] <;> simp
    · intro m
      rcases Shm.unlink_shape os id _ hle hfb with heq | heq <;> rw [heq] <;> simp

/-- C9 witness: a 62-byte name of `'a'`s panics; the 61-byte prefix of it
completes without panicking. -/
theorem C9_max_len_name_panics_witness :
    Shm.open_ ⟨[]⟩ (List.replicate 62 97) 1 =
      (.panic "called Option::unwrap on a None value", ⟨[]⟩, []) ∧
    (∀ m, (Shm.open_ ⟨[]⟩ (List.replicate 61 97) 1).1 ≠ .panic m) :=
  ⟨((C9_max_len_name_panics ⟨[]⟩ (List.replicate 62 97) 1).1 (by decide)
      (by decide)).1,
   ((C9_max_len_name_panics ⟨[]⟩ (List.replicate 61 97) 1).2 (by decide)).1⟩

/-- C6: For every NUMA policy whose node indices are all below 64, the
encoding passed to the placement syscall is: for `Bind{node}`, mode
`MPOL_BIND` and a 64-bit mask with exactly bit `node` set; for
`Interleave{nodes}`, mode `MPOL_INTERLEAVE` and a mask whose set bits are
exactly the listed nodes; in both cases `MPOL_F_STATIC_NODES` is OR-ed
into the mode and maxnode is 64. -/
theorem C6_mbind_encoding (numa : Numa)
    (h : ∀ n ∈ numa.nodes_of, n < 64) :
    (mbindEncode numa).maxnode = 64 ∧
    (mbindEncode numa).flags = 0 ∧
    (∀ node, numa = .Bind node →
      (mbindEncode numa).mode = MPOL_F_STATIC_NODES ||| MPOL_BIND ∧
      (mbindEncode numa).mask = 2 ^ node) ∧
    (∀ nodes, numa = .Interleave nodes →
      (mbindEncode numa).mode = MPOL_F_STATIC_NODES ||| MPOL_INTERLEAVE ∧
      ∀ b : Nat, ((mbindEncode numa).mask.testBit b = true ↔ b ∈ nodes)) := by
  refine ⟨?_, ?_, ?_, ?_⟩
  · cases numa <;> rfl
  · cases numa <;> rfl
  · rintro node rfl
    refine ⟨rfl, ?_⟩
    have hn : node < 64 := h node (by simp [Numa.nodes_of])
    simp [mbindEncode, Numa.to_mode_mask, u64_bit_eq_two_pow hn]
  · rintro nodes rfl
    refine ⟨rfl, fun b => ?_⟩
    have hmask : (mbindEncode (Numa.Interleave nodes)).mask =
        nodes.foldl (fun l node => l ||| u64_bit node) 0 := rfl
    rw [hmask, foldl_or_testBit b nodes 0 (by simpa [Numa.nodes_of] using h)]
    simp

/-- C6 witness: instantiate at `Interleave {0, 2}` (all nodes below 64). -/
theorem C6_mbind_encoding_witness :
    (mbindEncode (.Interleave [0, 2])).maxnode = 64 ∧
    ((mbindEncode (.Interleave [0, 2])).mask.testBit 2 = true ↔
      2 ∈ [0, 2]) :=
  ⟨(C6_mbind_encoding (.Interleave [0, 2]) (by decide)).1,
   ((C6_mbind_encoding (.Interleave [0, 2]) (by decide)).2.2.2 [0, 2] rfl).2 2⟩

/-- C7: whenever `File::map` is given a target address and the underlying
mmap call succeeds, a successful result equals the target exactly; a
mismatch aborts via the assertion (a panic, not an error value). -/
theorem C7_map_fixed_address (f : File) (target : Nat)
    (numa : Option Numa) (populate : Option Populate)
    (mmapResult : Except Error Nat)
    (mbindResult madviseResult : Except Error Unit) :
    (∀ a : Nat,
      File.map f (some target) numa populate mmapResult mbindResult
          madviseResult = .ok a → a = target) ∧
    (∀ actual : Nat, actual ≠ target →
      File.map f (some target) numa populate (.ok actual) mbindResult
          madviseResult = .panic "assertion failed: expected == actual") := by
  constructor
  · intro a hmap
    unfold File.map at hmap
    cases mmapResult with
    | error e => simp at hmap
    | ok actual =>
        simp only at hmap
        by_cases hta : target = actual
        · rw [if_pos hta] at hmap
          unfold File.map.afterChecks at hmap
          subst hta
          cases numa <;> cases mbindResult <;>
            cases populate <;> cases madviseResult <;>
            simp_all <;>
            (try cases ‹Populate›) <;> simp_all
        · rw [if_neg hta] at hmap
          exact absurd hmap (by simp)
  · intro actual hne
    unfold File.map
    exact if_neg fun h => hne h.symm

/-- C7 witness: target 4096, kernel returns 4096, everything succeeds. -/
theorem C7_map_fixed_address_witness :
    (4096 : Nat) = 4096 :=
  (C7_map_fixed_address ⟨none, 4096, 0, true⟩ 4096 none none
      (.ok 4096) (.ok ()) (.ok ())).1 4096 (by rfl)

/-- C8: `reserve_contiguous` issues exactly one reservation call for
`COUNT * SIZE` bytes and partitions the result into `COUNT` adjacent
sub-ranges in ascending address order: each sub-range spans exactly
`SIZE` bytes and ends where the next one starts. -/
theorem C8_reserve_contiguous (SIZE COUNT base : Nat) :
    (Reservation.new_contiguous SIZE COUNT base).2 =
      [("mmap64", SIZE * COUNT)] ∧
    (Reservation.new_contiguous SIZE COUNT base).1.length = COUNT ∧
    (∀ i, (h : i < COUNT) →
      Reservation.end_ SIZE
          ((Reservation.new_contiguous SIZE COUNT base).1.get
            ⟨i, by simp [Reservation.new_contiguous, h]⟩) -
        Reservation.start
          ((Reservation.new_contiguous SIZE COUNT base).1.get
            ⟨i, by simp [Reservation.new_contiguous, h]⟩) = SIZE) ∧
    (∀ i, (h : i + 1 < COUNT) →
      Reservation.end_ SIZE
          ((Reservation.new_contiguous SIZE COUNT base).1.get
            ⟨i, by simp [Reservation.new_contiguous]; omega⟩) =
        Reservation.start
          ((Reservation.new_contiguous SIZE COUNT base).1.get
            ⟨i + 1, by simp [Reservation.new_contiguous, h]⟩)) := by
  refine ⟨rfl, by simp [Reservation.new_contiguous], ?_, ?_⟩
  · intro i h
    simp [Reservation.new_contiguous, Reservation.end_, Reservation.start]
  · intro i h
    simp [Reservation.new_contiguous, Reservation.end_, Reservation.start]
    ring

/-- C8 witness: three 4096-byte reservations from base 65536. -/
theorem C8_reserve_contiguous_witness :
    Reservation.end_ 4096
        ((Reservation.new_contiguous 4096 3 65536).1.get
          ⟨0, by simp [Reservation.new_contiguous]⟩) =
      Reservation.start
        ((Reservation.new_contiguous 4096 3 65536).1.get
          ⟨1, by simp [Reservation.new_contiguous]⟩) :=
  (C8_reserve_contiguous 4096 3 65536).2.2.2 0 (by norm_num)

/-- C1 counterexample: in an empty namespace, `Raw::new` with
`create = false` for name `"a"` (size 1) does not fail with a "not found"
error — it succeeds, and a new 4096-byte object appears under `/a`,
because `Shm::open` always attempts `O_CREAT | O_EXCL` regardless of the
`create` flag, which only gates the stale-unlink step. -/
theorem C1_create_false_counterexample :
    (Raw.new ⟨[]⟩ [97] 1 false none none (.ok 4096) (.ok ()) (.ok ())).1 =
      .ok ⟨[97], 1, 4096⟩ ∧
    OS.lookup
        (Raw.new ⟨[]⟩ [97] 1 false none none
          (.ok 4096) (.ok ()) (.ok ())).2.1 [47, 97] =
      some 4096 := by
  constructor <;> rfl

/-- C1 amended: with `create = false`, `Raw::new` skips only the
stale-unlink step; the backend still open-or-creates, so when no object
with that name exists the exclusive create succeeds, a fresh object is
created (truncated to the page-rounded size) and the call succeeds when
the map succeeds — no "not found" error is surfaced. -/
theorem C1_create_false_still_creates (os : OS) (name : List Nat)
    (size addr : Nat) (numa : Option Numa) (populate : Option Populate)
    (hnul : 0 ∉ name) (hlen : name.length ≤ 61) (hpos : 0 < size)
    (habs : os.lookup (47 :: name) = none) :
    Raw.new os name size false numa populate (.ok addr) (.ok ()) (.ok ()) =
      (.ok ⟨name, size, addr⟩,
       ⟨(47 :: name, next_multiple_of size Page.SIZE) :: os.objects⟩,
       ["shm_open", "ftruncate64", "mmap64"]) := by
  have hmap : File.map
      ⟨some (47 :: name), next_multiple_of size Page.SIZE, 0, true⟩
      none numa populate (.ok addr) (.ok ()) (.ok ()) = .ok addr := by
    unfold File.map File.map.afterChecks
    rcases numa with _ | n <;> rcases populate with _ | p <;> (try cases p) <;> rfl
  unfold Raw.new
  simp only [Bool.false_eq_true, if_false]
  rw [if_neg (by omega), Shm.open_absent os name size hnul hlen habs]
  simp only [hmap]
  simp

/-- C1 witness for the amended theorem: empty namespace, name `"a"`,
size 1, kernel maps at 4096. -/
theorem C1_create_false_still_creates_witness :
    Raw.new ⟨[]⟩ [97] 1 false none none (.ok 4096) (.ok ()) (.ok ()) =
      (.ok ⟨[97], 1, 4096⟩, ⟨[([47, 97], 4096)]⟩,
       ["shm_open", "ftruncate64", "mmap64"]) :=
  C1_create_false_still_creates ⟨[]⟩ [97] 1 4096 none none
    (by decide) (by decide) (by decide) rfl

/-- C3 counterexample: unlinking name `"a"` when `/a` does not exist
fails with a `NotFound` error (for both `Shm::unlink` and `Raw::unlink`),
and after one successful unlink a second one fails the same way — unlink
is not idempotent in the code. -/
theorem C3_unlink_counterexample :
    Shm.unlink ⟨[([47, 97], 4096)]⟩ [97] = (.ok (), ⟨[]⟩, ["shm_unlink"]) ∧
    (Shm.unlink ⟨[]⟩ [97]).1 = .error (.Libc "shm_unlink" .notFound) ∧
    (Raw.unlink ⟨[]⟩ ⟨[97], 4096, 4096⟩).1 =
      .error (.Libc "shm_unlink" .notFound) := by
  refine ⟨?_, ?_, ?_⟩ <;> rfl

/-- C3 amended: `Shm::unlink` (and `Raw::unlink`, which delegates to it)
removes the name and succeeds when the object exists, and fails with a
`NotFound` error when it does not — so a second unlink after a successful
one fails rather than succeeding.  The `NotFound` outcome is swallowed
only by the caller `Raw::new` (stale cleanup), not by unlink itself. -/
theorem C3_unlink_not_idempotent (os : OS) (id : List Nat)
    (hnul : 0 ∉ id) (hlen : id.length ≤ 61) :
    (∀ sz, os.lookup (47 :: id) = some sz →
      Shm.unlink os id = (.ok (), os.remove (47 :: id), ["shm_unlink"])) ∧
    (os.lookup (47 :: id) = none →
      Shm.unlink os id =
        (.error (.Libc "shm_unlink" .notFound), os, ["shm_unlink"]) ∧
      (Error.Libc "shm_unlink" ErrorKind.notFound).is_not_found = true) ∧
    (∀ raw : Raw, Raw.unlink os raw = Shm.unlink os raw.name) :=
  ⟨fun sz hp => Shm.unlink_present os id sz hnul hlen hp,
   fun habs => ⟨Shm.unlink_absent os id hnul hlen habs, rfl⟩,
   fun _ => rfl⟩

/-- C3 witness: name `"a"` present (unlink succeeds and removes it) and
absent (unlink fails with `NotFound`). -/
theorem C3_unlink_not_idempotent_witness :
    Shm.unlink ⟨[([47, 97], 4096)]⟩ [97] = (.ok (), ⟨[]⟩, ["shm_unlink"]) ∧
    Shm.unlink ⟨[]⟩ [97] =
      (.error (.Libc "shm_unlink" .notFound), ⟨[]⟩, ["shm_unlink"]) :=
  ⟨by
    have h := (C3_unlink_not_idempotent ⟨[([47, 97], 4096)]⟩ [97]
      (by decide) (by decide)).1 4096 rfl
    simpa [OS.remove, OS.remove.go] using h,
   ((C3_unlink_not_idempotent ⟨[]⟩ [97] (by decide) (by decide)).2.1 rfl).1⟩

/-- C4 counterexample: a `Raw` handle opened with requested size 1 stores
and reports (via `size()`) size 1, not the page-rounded 4096 the claim
asserts. -/
theorem C4_size_counterexample :
    (Raw.new ⟨[]⟩ [97] 1 false none none (.ok 4096) (.ok ()) (.ok ())).1 =
      .ok ⟨[97], 1, 4096⟩ ∧
    Raw.size_fn ⟨[97], 1, 4096⟩ = 1 ∧ (1 : Nat) ≠ 4096 := by
  refine ⟨rfl, rfl, by decide⟩

/-- C4 amended: the backing object and mapping use the page-rounded size
(requesting 1 rounds to 4096 and 4097 to 8192, as carried by the `File`
returned from `Shm::open`), but the `Raw` handle itself stores — and
reports via `size()` — the requested size unrounded. -/
theorem C4_file_rounded_raw_unrounded (os : OS) (id : List Nat)
    (size : Nat) (create : Bool) (numa : Option Numa)
    (populate : Option Populate) (mm : Except Error Nat)
    (mb ma : Except Error Unit) :
    (∀ f os' tr, Shm.open_ os id size = (.ok f, os', tr) →
      f.size = next_multiple_of size Page.SIZE) ∧
    (∀ raw os' tr,
      Raw.new os id size create numa populate mm mb ma = (.ok raw, os', tr) →
      Raw.size_fn raw = size) ∧
    next_multiple_of 1 Page.SIZE = 4096 ∧
    next_multiple_of 4097 Page.SIZE = 8192 := by
  refine ⟨?_, ?_, by decide, by decide⟩
  · intro f os' tr h
    unfold Shm.open_ with_path at h
    by_cases hgt : id.length > MAX_LEN
    · rw [if_pos hgt] at h
      exact absurd h (by simp)
    · rw [if_neg hgt] at h
      cases hfb : from_bytes_until_nul (path_buffer id) with
      | none => rw [hfb] at h; exact absurd h (by simp)
      | some path =>
          rw [hfb] at h
          cases hl : os.lookup path with
          | none =>
              simp only [shm_open_excl, hl] at h
              simp only [ftruncate64, OS.lookup, OS.lookup.go, OS.setSize,
                OS.setSize.go] at h
              simp_all
              simp [← h.1]
          | some sz =>
              simp only [shm_open_excl, hl] at h
              rw [show (Error.Libc "shm_open"
                ErrorKind.alreadyExists).is_already_exists = true from rfl] at h
              simp only [shm_open_plain, hl, if_true] at h
              simp_all
              simp [← h.1]
  · intro raw os' tr h
    unfold Raw.new at h
    split at h
    · simp at h
    · simp at h
    · split at h
      · simp at h
      · split at h
        · split at h
          · simp only [Prod.mk.injEq, Outcome.ok.injEq] at h
            rw [← h.1]
            rfl
          · simp at h
          · simp at h
        · simp at h
        · simp at h

/-- C4 witness for the amended theorem: requested size 1 gives a `File` of
size 4096 while the `Raw` handle reports 1. -/
theorem C4_file_rounded_raw_unrounded_witness :
    Raw.size_fn ⟨[97], 1, 4096⟩ = 1 ∧ next_multiple_of 1 Page.SIZE = 4096 :=
  ⟨(C4_file_rounded_raw_unrounded ⟨[]⟩ [97] 1 false none none
      (.ok 4096) (.ok ()) (.ok ())).2.1 ⟨[97], 1, 4096⟩ ⟨[([47, 97], 4096)]⟩
      ["shm_open", "ftruncate64", "mmap64"] rfl,
   (C4_file_rounded_raw_unrounded ⟨[]⟩ [97] 1 false none none
      (.ok 4096) (.ok ()) (.ok ())).2.2.1⟩

/-- C10: `Raw::new` called with requested size 0 panics (the `unwrap` on
`NonZeroUsize::new(0)`) rather than returning an error, and a typed
region `Shm<T>` for a zero-sized `T` derives size
`0.next_multiple_of(4096) = 0`, so its construction panics too. -/
theorem C10_zero_size_panics (os : OS) (name : List Nat) (create : Bool)
    (numa : Option Numa) (populate : Option Populate)
    (mm : Except Error Nat) (mb ma : Except Error Unit)
    (hnul : 0 ∉ name) (hlen : name.length ≤ 61) :
    (Raw.new os name 0 create numa populate mm mb ma).1 =
      .panic "called Option::unwrap on a None value" ∧
    ShmTyped.SIZE 0 = 0 ∧
    (ShmTyped.new 0 os name create numa populate mm mb ma).1 =
      .panic "called Option::unwrap on a None value" := by
  have hraw : ∀ os0 : OS,
      (Raw.new os0 name 0 create numa populate mm mb ma).1 =
        .panic "called Option::unwrap on a None value" := by
    intro os0
    unfold Raw.new
    cases create with
    | false => rfl
    | true =>
        cases hl : os0.lookup (47 :: name) with
        | none =>
            rw [Shm.unlink_absent os0 name hnul hlen hl]
            rfl
        | some sz =>
            rw [Shm.unlink_present os0 name sz hnul hlen hl]
            rfl
  refine ⟨hraw os, rfl, ?_⟩
  unfold ShmTyped.new
  rw [show ShmTyped.SIZE 0 = 0 from rfl]
  exact hraw os

/-- C10 witness: name `"a"`, empty namespace, `create = true`. -/
theorem C10_zero_size_panics_witness :
    (Raw.new ⟨[]⟩ [97] 0 true none none (.ok 4096) (.ok ()) (.ok ())).1 =
      .panic "called Option::unwrap on a None value" ∧
    (ShmTyped.new 0 ⟨[]⟩ [97] true none none
        (.ok 4096) (.ok ()) (.ok ())).1 =
      .panic "called Option::unwrap on a None value" :=
  ⟨(C10_zero_size_panics ⟨[]⟩ [97] true none none (.ok 4096) (.ok ()) (.ok ())
      (by decide) (by decide)).1,
   (C10_zero_size_panics ⟨[]⟩ [97] true none none (.ok 4096) (.ok ()) (.ok ())
      (by decide) (by decide)).2.2⟩

end ShmCrate
